import Mathlib

/-!
Verification of the order-settlement ledger of `src/new.py` (Lumina Waters
Finance). The Python source is a single Streamlit script; the definitions
below are a shallow embedding of its data handling: tables are lists,
money amounts are rationals (the script uses Python floats only for
summation and subtraction, so exact rationals model the same arithmetic),
and every helper is named after the source symbol it embeds.
-/

namespace Lumina

/-! ### Numeric cell parsing (src/new.py, load_data, lines 100-103)

`load_data` coerces every column whose lower-cased header contains one of
the keywords amount/price/quantity/qty/remaining/paid:
`pd.to_numeric(df[col].astype(str).str.replace(',', '').str.replace('₹', '').str.strip(), errors='coerce').fillna(0)`.
-/

/-- Value of a list of decimal digit characters, most significant first
(how `int`/`to_numeric` read a digit run). -/
def digitsVal (cs : List Char) : Nat :=
  cs.foldl (fun a c => a * 10 + (c.toNat - 48)) 0

/-- Model of `str.replace(',', '').str.replace('₹', '')`: every comma and
rupee sign is removed. -/
def removeSeps (s : String) : String :=
  ⟨s.data.filter (fun c => !(c == ',' || c == '₹'))⟩

/-- Model of `str.strip()`: leading and trailing whitespace removed. -/
def stripWS (s : String) : String :=
  ⟨((s.data.dropWhile Char.isWhitespace).reverse.dropWhile Char.isWhitespace).reverse⟩

/-- Split a character list at the first dot, returning the part before it
and, when a dot occurs, the part after it. -/
def splitAtDot : List Char → List Char × Option (List Char)
  | [] => ([], none)
  | c :: t =>
    if c == '.' then ([], some t)
    else
      let (a, b) := splitAtDot t
      (c :: a, b)

/-- Modelled from the spec: `pandas.to_numeric(..., errors='coerce')` on a
single cell, restricted to plain signed decimal literals (the library call
is third-party code, not part of src/). Returns `none` (pandas `NaN`)
when the text is not a decimal literal. -/
def parseDecimal (s : String) : Option ℚ :=
  let cs := s.data
  let (neg, cs) :=
    match cs with
    | '-' :: t => (true, t)
    | '+' :: t => (false, t)
    | _ => (false, cs)
  let (ip, fp?) := splitAtDot cs
  let ok :=
    ip.all Char.isDigit &&
      (match fp? with
       | none => !ip.isEmpty
       | some fp => fp.all Char.isDigit && !(ip.isEmpty && fp.isEmpty))
  if ok then
    let fracLen := match fp? with | none => 0 | some fp => fp.length
    let fracVal : Nat := match fp? with | none => 0 | some fp => digitsVal fp
    let mag : ℚ := (digitsVal ip : ℚ) + (fracVal : ℚ) / ((10 : ℚ) ^ fracLen)
    some (if neg then -mag else mag)
  else none

/-- Tolerant numeric cell parser of `load_data` (src/new.py line 103):
strip separators and currency sign, strip whitespace, coerce, and
substitute `0` for anything unparseable (`errors='coerce'` + `fillna(0)`). -/
def toNumeric (s : String) : ℚ :=
  (parseDecimal (stripWS (removeSeps s))).getD 0

/-! ### Identifier allocator (src/new.py, get_next_id, lines 111-117)

```
ids = sheets[sheet_name].col_values(1)[1:]
nums = [int(x) for x in ids if str(x).strip().isdigit()]
return max(nums) + 1 if nums else 1
```
-/

/-- Modelled from the spec: the decimal value `int` assigns to one
character. Python's `int` accepts every Unicode decimal digit
(category Nd); the model carries the two Nd blocks the development
exercises — ASCII `0`-`9` and the fullwidth digits `０`-`９` — and the
other Nd blocks behave exactly like these two. -/
def pyDecimalVal (c : Char) : Option Nat :=
  if 48 ≤ c.toNat ∧ c.toNat ≤ 57 then some (c.toNat - 48)
  else if 65296 ≤ c.toNat ∧ c.toNat ≤ 65305 then some (c.toNat - 65296)
  else none

/-- Modelled from the spec: Python's per-character `str.isdigit` test.
It accepts every decimal digit and also the digit-but-not-decimal
characters (`Numeric_Type=Digit`), represented here by the super- and
subscript digits, which `int` rejects. -/
def pyDigitChar (c : Char) : Bool :=
  (pyDecimalVal c).isSome ||
    (['⁰', '¹', '²', '³', '⁴', '⁵', '⁶', '⁷', '⁸', '⁹',
      '₀', '₁', '₂', '₃', '₄', '₅', '₆', '₇', '₈', '₉'] : List Char).contains c

/-- Python `str.isdigit()`: true for a non-empty string of digit
characters (decimal or not). -/
def pyIsDigit (s : String) : Bool :=
  !s.data.isEmpty && s.data.all pyDigitChar

/-- Modelled from the spec: Python `int(x)` on a string that passed the
`isdigit` test after stripping — `int` itself tolerates the surrounding
whitespace, then requires every character to be a DECIMAL digit; a
digit-only string with a non-decimal digit (a superscript, say) raises
`ValueError`, modelled as `none`. -/
def pyInt (s : String) : Option Nat :=
  let t := (stripWS s).data
  if t.isEmpty then none
  else if t.all (fun c => (pyDecimalVal c).isSome) then
    some (t.foldl (fun a c => a * 10 + (pyDecimalVal c).getD 0) 0)
  else none

/-- The list comprehension `[int(x) for x in ids if str(x).strip().isdigit()]`
applied to the already-filtered candidates: it is the list of the parsed
values, unless some `int(x)` raises, which aborts the whole comprehension
(`none`). -/
def intsOf : List String → Option (List Nat)
  | [] => some []
  | x :: t =>
    match pyInt x with
    | none => none
    | some n =>
      match intsOf t with
      | none => none
      | some ns => some (n :: ns)

/-- The identifier values that actually parse: the values whose `isdigit`
test passes and whose `int` call succeeds. -/
def parsedIds (ids : List String) : List Nat :=
  (ids.filter (fun x => pyIsDigit (stripWS x))).filterMap pyInt

/-- The next-identifier allocator `get_next_id` (src/new.py lines 111-117):
`max(nums) + 1` when the comprehension succeeds with some value, `1` when
it succeeds empty — and also `1` through the bare `except` when any
`int(x)` inside the comprehension raises. Python's `max` over a non-empty
list is the left fold of `max` from the head. -/
def get_next_id (ids : List String) : Nat :=
  match intsOf (ids.filter (fun x => pyIsDigit (stripWS x))) with
  | none => 1
  | some [] => 1
  | some (n :: ns) => ns.foldl max n + 1

/-! ### Typed ledger rows

Typed projections of the spreadsheet rows the settlement computations
consume. An order row holds the columns appended at src/new.py line 304
that the settlement engine reads (id, customer, total, the two status
labels); a transaction row holds the columns appended at line 365.
Identifier cells stay strings because the sheet is untyped and the code
compares them with `astype(str)`.
-/

/-- An order row: the settlement-relevant columns of the Orders sheet. -/
structure Order where
  order_id : String
  customer_id : String
  total_amount : ℚ
  payment_status : String
  order_status : String
deriving Repr, DecidableEq

/-- A transaction row, as appended by the Add Transaction form
(src/new.py line 365): `[get_next_id, oid, date, amount, method,
remaining, notes]`. -/
structure Txn where
  transaction_id : Nat
  order_id : String
  date : String
  amount_paid : ℚ
  method : String
  remaining : ℚ
  notes : String
deriving Repr, DecidableEq

/-- The transactions whose `order_id` matches `oid`
(`transactions[transactions[order_id_col].astype(str) == str(oid)]`,
src/new.py line 358). -/
def txnsFor (txns : List Txn) (oid : String) : List Txn :=
  txns.filter (fun t => t.order_id == oid)

/-- Total already paid against an order: the `Amount Paid` sum over the
matching transaction rows (src/new.py line 358; `0` when there are no
transactions, lines 360-362). -/
def paidSoFar (txns : List Txn) (oid : String) : ℚ :=
  ((txnsFor txns oid).map Txn.amount_paid).sum

/-! ### Receivables pipeline (Reports tab, src/new.py lines 522-544) -/

/-- The `paid_by_order` frame (src/new.py line 530):
`transactions.groupby(trans_order_id_col)[amount_paid_col].sum()` — one
`(order id, summed payments)` pair per distinct order id occurring in the
transactions table. -/
def paid_by_order (txns : List Txn) : List (String × ℚ) :=
  ((txns.map Txn.order_id).dedup).map (fun k => (k, paidSoFar txns k))

/-- The `TotalPaid` column after the left merge and
`fillna(0)` (src/new.py lines 533-534): the grouped sum for this order's
id, or `0` when the id has no transactions. -/
def lookupPaid (pbo : List (String × ℚ)) (oid : String) : ℚ :=
  match pbo.find? (fun p => p.1 == oid) with
  | some p => p.2
  | none => 0

/-- The `Unpaid` column (src/new.py line 535):
`orders_merged[total_amount_col] - orders_merged["TotalPaid"]`. -/
def unpaid (o : Order) (txns : List Txn) : ℚ :=
  o.total_amount - lookupPaid (paid_by_order txns) o.order_id

/-- The receivables report (src/new.py lines 523-543): inside the guard
`if not orders.empty and not transactions.empty`, the rows with
`Unpaid > 0`, keeping the selected columns
`[order_id, customer_id, total_amount, "Unpaid"]` (lines 538-543);
outside the guard, the initial empty frame of line 523. -/
def receivablesRows (orders : List Order) (txns : List Txn) :
    List (String × String × ℚ × ℚ) :=
  if !orders.isEmpty && !txns.isEmpty then
    (orders.filter (fun o => decide (0 < unpaid o txns))).map
      (fun o => (o.order_id, o.customer_id, o.total_amount, unpaid o txns))
  else []

/-- The displayed receivables total (src/new.py lines 522 and 544):
inside the same guard, `orders_merged["Unpaid"].sum()` — the sum over
ALL order rows, not only the filtered ones; `0` outside the guard. -/
def rec_total (orders : List Order) (txns : List Txn) : ℚ :=
  if !orders.isEmpty && !txns.isEmpty then
    (orders.map (fun o => unpaid o txns)).sum
  else 0

/-! ### Payment recording (Add Transaction form, src/new.py lines 353-365) -/

/-- The order total the form looks up (src/new.py line 353):
`orders[orders[order_id_col].astype(str) == str(oid)][total_amount_col].sum()`
— the SUM over every order row whose id matches, not a single-row lookup. -/
def orderTotalFor (orders : List Order) (oid : String) : ℚ :=
  ((orders.filter (fun o => o.order_id == oid)).map Order.total_amount).sum

/-- The id the appended transaction receives: `get_next_id("transactions")`
applied to the (textual) identifier column. -/
def nextTxnId (txns : List Txn) : Nat :=
  get_next_id (txns.map (fun t => toString t.transaction_id))

/-- Recording a payment (src/new.py lines 353-365): compute
`remaining = total - (paid_so_far + amount)` and append the new
transaction row. Returns the transactions table after the append. -/
def recordPayment (orders : List Order) (txns : List Txn) (oid : String)
    (date : String) (amount : ℚ) (method : String) (notes : String) :
    List Txn :=
  let total := orderTotalFor orders oid
  let paid_so_far := paidSoFar txns oid
  let remaining := total - (paid_so_far + amount)
  txns ++ [{ transaction_id := nextTxnId txns, order_id := oid,
             date := date, amount_paid := amount, method := method,
             remaining := remaining, notes := notes }]

/-- The snapshot stored by the most recently appended transaction. -/
def lastRemaining (txns : List Txn) : Option ℚ :=
  txns.getLast?.map Txn.remaining

/-- Total sales (src/new.py lines 187 and 501):
`orders[total_amount_col].sum()` over the whole Orders table, with no
status filter of any kind. -/
def total_sales (orders : List Order) : ℚ :=
  (orders.map Order.total_amount).sum

/-! ### Raw tables and header-keyword lookup (src/new.py lines 89-149)

`load_data` returns a DataFrame whose columns are the stripped header
cells and whose body rows are untyped text; the dashboard locates columns
with `find_column` and falls back to a hard-coded name. -/

/-- A loaded sheet: stripped header cells and the body rows as raw text. -/
structure Table where
  headers : List String
  rows : List (List String)
deriving Repr, DecidableEq

/-- Model of pandas `df.empty`: no body rows or no columns. -/
def tableEmpty (t : Table) : Bool :=
  t.rows.isEmpty || t.headers.isEmpty

/-- Python `s.lower()` on the ASCII headers involved. -/
def lowerStr (s : String) : String :=
  ⟨s.data.map Char.toLower⟩

/-- Whether `needle` occurs as a contiguous substring of `hay`
(Python's `in` on strings), by direct recursion on the haystack. -/
def containsSub (needle hay : List Char) : Bool :=
  match hay with
  | [] => needle.isEmpty
  | _ :: t => needle.isPrefixOf hay || containsSub needle t

/-- Model of Python `str.split()` with no separator: the maximal runs of
non-whitespace characters, in order, empties discarded. -/
def words (s : String) : List String :=
  ((s.data.foldr
      (fun c acc =>
        if c.isWhitespace then [] :: acc
        else
          match acc with
          | [] => [[c]]
          | g :: gs => (c :: g) :: gs)
      []).filter (fun g => !g.isEmpty)).map (fun g => ⟨g⟩)

/-- The `find_column` match test (src/new.py line 147):
`all(keyword.lower() in col_lower for keyword in keywords.split())`. -/
def matchesKeywords (keywords col : String) : Bool :=
  (words keywords).all
    (fun kw => containsSub (lowerStr kw).data (lowerStr col).data)

/-- The helper `find_column` (src/new.py lines 141-149): `None` for an
empty frame, otherwise the first column whose lower-cased name contains
every keyword. -/
def find_column (t : Table) (keywords : String) : Option String :=
  if tableEmpty t then none
  else t.headers.find? (fun col => matchesKeywords keywords col)

/-- Sum of the tolerant numeric parse over one named column (what
`df[col].sum()` computes after `load_data`'s coercion of lines 100-103 —
every column the dashboard sums matches a coercion keyword, so its cells
went through `toNumeric`). A missing cell reads as empty text. -/
def colSum (t : Table) (name : String) : ℚ :=
  match t.headers.findIdx? (fun h => h == name) with
  | none => 0
  | some i => (t.rows.map (fun r => toNumeric (r.getD i ""))).sum

/-- The column-or-fallback-then-guard idiom of the Dashboard and Reports
metrics (src/new.py lines 182-190 and 496-504):
`col = find_column(t, kws) or fallback; t[col].sum() if col in t.columns else 0`. -/
def guardedSum (t : Table) (kws fallback : String) : ℚ :=
  let c := (find_column t kws).getD fallback
  if t.headers.contains c then colSum t c else 0

/-- The computed financial metrics (src/new.py lines 187-191, repeated at
lines 501-505 with `net_balance` spelled `net_profit`). -/
structure Summary where
  total_sales : ℚ
  total_received : ℚ
  total_other_income : ℚ
  total_expenses : ℚ
  net_balance : ℚ
deriving Repr, DecidableEq

/-- The dashboard's financial summary (src/new.py lines 182-191):
```
total_sales = orders[total_amount_col].sum() if ... else 0
paid = transactions[amount_paid_col].sum() if ... else 0
extra_income = income[income_amount_col].sum() if ... else 0
total_expenses = expenses[expense_amount_col].sum() if ... else 0
net_balance = paid + extra_income - total_expenses
```
-/
def financial_summary (orders transactions expenses income : Table) : Summary :=
  let total_sales := guardedSum orders "total amount" "Total Amount"
  let paid := guardedSum transactions "amount paid" "Amount Paid"
  let extra_income := guardedSum income "amount" "Amount"
  let total_expenses := guardedSum expenses "amount" "Amount"
  { total_sales := total_sales
    total_received := paid
    total_other_income := extra_income
    total_expenses := total_expenses
    net_balance := paid + extra_income - total_expenses }

/-- The table with no columns and no rows: what `load_data` returns for a
sheet holding at most a header row (src/new.py lines 94-95). -/
def emptyTable : Table := ⟨[], []⟩

/-! ### The groupby/merge lookup equals the direct filtered sum -/

/-- There are no transactions for any order in an empty table. -/
theorem txnsFor_nil (oid : String) : txnsFor [] oid = [] := rfl

/-- A transaction row whose id matches is kept by the filter. -/
theorem txnsFor_cons_eq (t : Txn) (ts : List Txn) (oid : String)
    (h : t.order_id = oid) : txnsFor (t :: ts) oid = t :: txnsFor ts oid := by
  simp [txnsFor, List.filter_cons, h]

/-- Finding a key in an association list built by mapping a function over
a key list reduces to finding the key itself. -/
theorem find_keyed (keys : List String) (f : String → ℚ) (oid : String) :
    ((keys.map (fun k => (k, f k))).find? (fun p => p.1 == oid)) =
      (keys.find? (fun k => k == oid)).map (fun k => (k, f k)) := by
  induction keys with
  | nil => rfl
  | cons k t ih =>
    by_cases h : (k == oid) = true
    · simp [List.find?, h]
    · simp only [List.map_cons, List.find?]
      rw [Bool.not_eq_true] at h
      simp [h, ih]

/-- A key that occurs in the list is found, and what is found is the key
itself (the first hit of `k == oid` is `oid`). -/
theorem find_self_of_mem {keys : List String} {oid : String}
    (h : oid ∈ keys) : keys.find? (fun k => k == oid) = some oid := by
  induction keys with
  | nil => cases h
  | cons k t ih =>
    by_cases hk : (k == oid) = true
    · have : k = oid := by simpa using hk
      simp [List.find?, hk, this]
    · rw [Bool.not_eq_true] at hk
      have hne : k ≠ oid := by simpa using hk
      have : oid ∈ t := by
        rcases List.mem_cons.mp h with h1 | h1
        · exact absurd h1.symm hne
        · exact h1
      simp [List.find?, hk, ih this]

/-- An order id with no transaction rows sums to `0`. -/
theorem paidSoFar_eq_zero_of_not_mem {txns : List Txn} {oid : String}
    (h : oid ∉ txns.map Txn.order_id) : paidSoFar txns oid = 0 := by
  have : txnsFor txns oid = [] := by
    rw [txnsFor, List.filter_eq_nil_iff]
    intro t ht
    simp only [beq_iff_eq]
    intro he
    exact h (List.mem_map.mpr ⟨t, ht, he⟩)
  simp [paidSoFar, this]

/-- The `TotalPaid` value produced by groupby + left merge + `fillna(0)`
(src/new.py lines 530-534) equals the direct sum of `Amount Paid` over
the transactions of the order. -/
theorem lookupPaid_paid_by_order (txns : List Txn) (oid : String) :
    lookupPaid (paid_by_order txns) oid = paidSoFar txns oid := by
  by_cases h : oid ∈ (txns.map Txn.order_id).dedup
  · rw [lookupPaid, paid_by_order, find_keyed, find_self_of_mem h, Option.map_some']
  · have hnm : oid ∉ txns.map Txn.order_id := fun hm => h (List.mem_dedup.mpr hm)
    have hfind : ((txns.map Txn.order_id).dedup).find? (fun k => k == oid) = none := by
      rw [List.find?_eq_none]
      intro k hk
      simp only [beq_iff_eq]
      intro he
      exact h (he ▸ hk)
    rw [lookupPaid, paid_by_order, find_keyed, hfind]
    exact (paidSoFar_eq_zero_of_not_mem hnm).symm

/-- The `Unpaid` column in closed form: order total minus the direct sum
of the matching payments. -/
theorem unpaid_eq (o : Order) (txns : List Txn) :
    unpaid o txns = o.total_amount - paidSoFar txns o.order_id := by
  rw [unpaid, lookupPaid_paid_by_order]

/-! ### General helper lemmas -/

/-- A left fold of `max` dominates its seed and every element folded in
(Python's `max` over a non-empty list). -/
theorem le_foldl_max : ∀ (l : List Nat) (a : Nat),
    a ≤ l.foldl max a ∧ ∀ x ∈ l, x ≤ l.foldl max a := by
  intro l
  induction l with
  | nil => intro a; exact ⟨le_refl a, by intro x hx; cases hx⟩
  | cons b t ih =>
    intro a
    have h := ih (max a b)
    rw [List.foldl_cons]
    refine ⟨le_trans (le_max_left a b) h.1, ?_⟩
    intro x hx
    rcases List.mem_cons.mp hx with h1 | h1
    · rw [h1]
      exact le_trans (le_max_right a b) h.1
    · exact h.2 x h1

/-- A left fold of `max` is attained: it is the seed or one of the folded
elements. -/
theorem foldl_max_mem : ∀ (l : List Nat) (a : Nat),
    l.foldl max a = a ∨ l.foldl max a ∈ l := by
  intro l
  induction l with
  | nil => intro a; exact Or.inl rfl
  | cons b t ih =>
    intro a
    rw [List.foldl_cons]
    rcases ih (max a b) with h | h
    · rcases max_choice a b with hm | hm
      · exact Or.inl (by rw [h, hm])
      · exact Or.inr (by rw [h, hm]; exact List.mem_cons_self b t)
    · exact Or.inr (List.mem_cons_of_mem b h)

/-- Dropping the non-positive entries of a list does not change its sum
when every entry is non-negative. -/
theorem sum_map_eq_sum_filter_pos {α : Type} (f : α → ℚ) :
    ∀ (l : List α), (∀ o ∈ l, 0 ≤ f o) →
      (l.map f).sum = ((l.filter (fun o => decide (0 < f o))).map f).sum := by
  intro l
  induction l with
  | nil => intro _; rfl
  | cons a t ih =>
    intro h
    have ha := h a (List.mem_cons_self a t)
    have ht : ∀ o ∈ t, 0 ≤ f o := fun o ho => h o (List.mem_cons_of_mem a ho)
    by_cases hpos : 0 < f a
    · simp [List.filter_cons, hpos, ih ht]
    · have h0 : f a = 0 := le_antisymm (not_lt.mp hpos) ha
      simp [List.filter_cons, hpos, ih ht, h0]

/-- With a non-empty transactions table the receivables guard passes and
the report is the filtered, projected order list. -/
theorem receivablesRows_of_ne_nil (orders : List Order) (txns : List Txn)
    (h : txns ≠ []) :
    receivablesRows orders txns =
      (orders.filter (fun o => decide (0 < unpaid o txns))).map
        (fun o => (o.order_id, o.customer_id, o.total_amount, unpaid o txns)) := by
  cases orders with
  | nil => simp [receivablesRows]
  | cons a l =>
    have ht : txns.isEmpty = false := by
      cases txns with
      | nil => exact absurd rfl h
      | cons t ts => rfl
    simp [receivablesRows, ht]

/-- With both tables non-empty the displayed total is the sum of `Unpaid`
over every order row. -/
theorem rec_total_of_ne_nil (orders : List Order) (txns : List Txn)
    (ho : orders ≠ []) (ht : txns ≠ []) :
    rec_total orders txns = (orders.map (fun o => unpaid o txns)).sum := by
  have ho' : orders.isEmpty = false := by
    cases orders with
    | nil => exact absurd rfl ho
    | cons _ _ => rfl
  have ht' : txns.isEmpty = false := by
    cases txns with
    | nil => exact absurd rfl ht
    | cons _ _ => rfl
  simp [rec_total, ho', ht']

/-- When no header of a table matches the keywords, the fallback name is
not a header either (it would match), so the guarded sum is `0`. -/
theorem guardedSum_eq_zero_of_no_match (t : Table) (kws fb : String)
    (hfb : matchesKeywords kws fb = true)
    (h : ∀ c ∈ t.headers, matchesKeywords kws c = false) :
    guardedSum t kws fb = 0 := by
  have hfc : find_column t kws = none := by
    rw [find_column]
    split
    · rfl
    · rw [List.find?_eq_none]
      intro c hc
      simp [h c hc]
  have hnm : fb ∉ t.headers := by
    intro hmem
    have hfalse := h fb hmem
    rw [hfb] at hfalse
    cases hfalse
  rw [guardedSum, hfc]
  simp [hnm]

/-- When every candidate parses, the comprehension succeeds and returns
exactly the parsed values. -/
theorem intsOf_all_some : ∀ (l : List String),
    (∀ x ∈ l, (pyInt x).isSome) → intsOf l = some (l.filterMap pyInt) := by
  intro l
  induction l with
  | nil => intro _; rfl
  | cons x t ih =>
    intro h
    have hx := h x (List.mem_cons_self x t)
    have ht : ∀ y ∈ t, (pyInt y).isSome :=
      fun y hy => h y (List.mem_cons_of_mem x hy)
    rcases hox : pyInt x with _ | n
    · rw [hox] at hx
      cases hx
    · simp [intsOf, hox, ih ht, List.filterMap_cons]

/-- When some candidate fails to parse, the whole comprehension raises
and is aborted. -/
theorem intsOf_has_none : ∀ (l : List String),
    (∃ x ∈ l, pyInt x = none) → intsOf l = none := by
  intro l
  induction l with
  | nil =>
    rintro ⟨x, hx, _⟩
    cases hx
  | cons y t ih =>
    rintro ⟨x, hx, hnone⟩
    rcases List.mem_cons.mp hx with h | h
    · rw [← h] at *
      simp [intsOf, hnone]
    · rcases hoy : pyInt y with _ | n
      · simp [intsOf, hoy]
      · simp [intsOf, hoy, ih ⟨x, h, hnone⟩]

/-! ### Claim theorems -/

/-- C1: for every order with total `T` and the (possibly empty) collection
of its matching transactions, the computed outstanding balance (`Unpaid`,
src/new.py line 535) equals `T` minus the sum of the payments; with no
matching transactions it equals `T`, and when the payments exceed `T` it
is the exact negative difference, not clamped and not an error. -/
theorem unpaid_outstanding (o : Order) (txns : List Txn) :
    unpaid o txns = o.total_amount - paidSoFar txns o.order_id ∧
    (txnsFor txns o.order_id = [] → unpaid o txns = o.total_amount) ∧
    (o.total_amount < paidSoFar txns o.order_id →
      unpaid o txns = -(paidSoFar txns o.order_id - o.total_amount) ∧
        unpaid o txns < 0) := by
  refine ⟨unpaid_eq o txns, ?_, ?_⟩
  · intro h
    rw [unpaid_eq, paidSoFar, h]
    simp
  · intro h
    rw [unpaid_eq]
    exact ⟨by ring, by linarith⟩

/-- C1 witness: an order with total 100 and no transactions is fully
outstanding; an order with total 100 and a 150 payment has a negative
outstanding balance. -/
theorem unpaid_outstanding_witness :
    unpaid ⟨"1", "C1", 100, "Unpaid", "Pending"⟩ [] = 100 ∧
    unpaid ⟨"2", "C2", 100, "Unpaid", "Pending"⟩
      [⟨1, "2", "d", 150, "Cash", -50, ""⟩] < 0 := by
  constructor
  · exact (unpaid_outstanding ⟨"1", "C1", 100, "Unpaid", "Pending"⟩ []).2.1 rfl
  · refine ((unpaid_outstanding ⟨"2", "C2", 100, "Unpaid", "Pending"⟩
      [⟨1, "2", "d", 150, "Cash", -50, ""⟩]).2.2 ?_).2
    have h : txnsFor [⟨1, "2", "d", 150, "Cash", -50, ""⟩] "2" =
        [⟨1, "2", "d", 150, "Cash", -50, ""⟩] := rfl
    simp only [paidSoFar, h, List.map_cons, List.map_nil]
    norm_num

/-- C2 counterexample: with a non-empty orders table and an entirely
empty transactions table, the guard at src/new.py line 524 leaves the
receivables report empty even though the single order has a strictly
positive outstanding balance, so no row is emitted for it. -/
theorem receivables_empty_txns_counterexample :
    receivablesRows [⟨"1", "C1", 100, "Unpaid", "Pending"⟩] [] = [] ∧
    0 < unpaid ⟨"1", "C1", 100, "Unpaid", "Pending"⟩ [] := by
  constructor
  · rfl
  · rw [unpaid_eq]
    simp only [paidSoFar, txnsFor_nil, List.map_nil, List.sum_nil]
    norm_num

/-- C2 amended: when the transactions table is non-empty, the receivables
report emits exactly one row (order id, customer id, total, outstanding)
per order row with strictly positive outstanding balance, in table order,
and no row for any other order; when the transactions table is empty the
report is empty regardless of the orders. -/
theorem receivables_rows_amended (orders : List Order) (txns : List Txn)
    (h : txns ≠ []) :
    receivablesRows orders txns =
      (orders.filter (fun o => decide (0 < unpaid o txns))).map
        (fun o => (o.order_id, o.customer_id, o.total_amount, unpaid o txns)) :=
  receivablesRows_of_ne_nil orders txns h

/-- C2 amended witness: the amended statement at a one-order, one-payment
fixture. -/
theorem receivables_rows_amended_witness :
    receivablesRows [⟨"1", "C1", 100, "Unpaid", "Pending"⟩]
        [⟨1, "1", "d", 40, "Cash", 60, ""⟩] =
      (([⟨"1", "C1", 100, "Unpaid", "Pending"⟩] : List Order).filter
          (fun o => decide (0 < unpaid o [⟨1, "1", "d", 40, "Cash", 60, ""⟩]))).map
        (fun o => (o.order_id, o.customer_id, o.total_amount,
          unpaid o [⟨1, "1", "d", 40, "Cash", 60, ""⟩])) :=
  receivables_rows_amended _ _ (by simp)

/-- C3 counterexample: with orders of totals 100 and 50 and a single 150
payment against the first, `rec_total` (src/new.py line 544, summed over
ALL orders) is 0 while the sum of outstanding over the emitted rows is
50, so the displayed total does not equal the sum over the emitted
rows. -/
theorem rec_total_counterexample :
    rec_total [⟨"1", "C1", 100, "Unpaid", "Pending"⟩, ⟨"2", "C2", 50, "Unpaid", "Pending"⟩]
        [⟨1, "1", "d", 150, "Cash", -50, ""⟩] = 0 ∧
    ((receivablesRows [⟨"1", "C1", 100, "Unpaid", "Pending"⟩, ⟨"2", "C2", 50, "Unpaid", "Pending"⟩]
        [⟨1, "1", "d", 150, "Cash", -50, ""⟩]).map (fun r => r.2.2.2)).sum = 50 ∧
    rec_total [⟨"1", "C1", 100, "Unpaid", "Pending"⟩, ⟨"2", "C2", 50, "Unpaid", "Pending"⟩]
        [⟨1, "1", "d", 150, "Cash", -50, ""⟩] ≠
      ((receivablesRows [⟨"1", "C1", 100, "Unpaid", "Pending"⟩, ⟨"2", "C2", 50, "Unpaid", "Pending"⟩]
        [⟨1, "1", "d", 150, "Cash", -50, ""⟩]).map (fun r => r.2.2.2)).sum := by
  have ha : txnsFor [⟨1, "1", "d", 150, "Cash", -50, ""⟩] "1" =
      [⟨1, "1", "d", 150, "Cash", -50, ""⟩] := rfl
  have hb : txnsFor [⟨1, "1", "d", 150, "Cash", -50, ""⟩] "2" = [] := rfl
  have hu1 : unpaid ⟨"1", "C1", 100, "Unpaid", "Pending"⟩
      [⟨1, "1", "d", 150, "Cash", -50, ""⟩] = -50 := by
    rw [unpaid_eq]
    simp only [paidSoFar, ha, List.map_cons, List.map_nil]
    norm_num
  have hu2 : unpaid ⟨"2", "C2", 50, "Unpaid", "Pending"⟩
      [⟨1, "1", "d", 150, "Cash", -50, ""⟩] = 50 := by
    rw [unpaid_eq]
    simp only [paidSoFar, hb, List.map_nil]
    norm_num
  have h1 : rec_total [⟨"1", "C1", 100, "Unpaid", "Pending"⟩, ⟨"2", "C2", 50, "Unpaid", "Pending"⟩]
      [⟨1, "1", "d", 150, "Cash", -50, ""⟩] = 0 := by
    rw [rec_total_of_ne_nil _ _ (by simp) (by simp)]
    simp only [List.map_cons, List.map_nil, hu1, hu2]
    norm_num
  have h2 : receivablesRows [⟨"1", "C1", 100, "Unpaid", "Pending"⟩, ⟨"2", "C2", 50, "Unpaid", "Pending"⟩]
      [⟨1, "1", "d", 150, "Cash", -50, ""⟩] = [("2", "C2", (50:ℚ), 50)] := by
    rw [receivablesRows_of_ne_nil _ _ (by simp)]
    simp only [List.filter_cons, hu1, hu2]
    norm_num [hu1, hu2]
  refine ⟨h1, ?_, ?_⟩
  · rw [h2]
    simp
  · rw [h1, h2]
    simp

/-- C3 amended: the displayed receivables total is the sum of `Unpaid`
over ALL order rows (negative balances included); it equals the sum of
outstanding over exactly the emitted rows whenever the transactions table
is non-empty and no order is over-paid. -/
theorem rec_total_amended (orders : List Order) (txns : List Txn)
    (ht : txns ≠ []) (hnn : ∀ o ∈ orders, 0 ≤ unpaid o txns) :
    rec_total orders txns =
      ((receivablesRows orders txns).map (fun r => r.2.2.2)).sum := by
  rw [receivablesRows_of_ne_nil orders txns ht, List.map_map]
  cases horders : orders with
  | nil => simp [rec_total]
  | cons a l =>
    rw [← horders]
    rw [rec_total_of_ne_nil orders txns (by rw [horders]; exact List.cons_ne_nil a l) ht]
    rw [sum_map_eq_sum_filter_pos (fun o => unpaid o txns) orders hnn]
    rfl

/-- C3 amended witness: the spec's fixture — orders of totals 1000 and
500, one 400 payment against the first — where the displayed total, the
sum over the emitted rows, and the value 1100 all agree. -/
theorem rec_total_amended_witness :
    rec_total [⟨"1", "C1", 1000, "Unpaid", "Pending"⟩, ⟨"2", "C2", 500, "Unpaid", "Pending"⟩]
        [⟨1, "1", "d", 400, "Cash", 600, ""⟩] =
      ((receivablesRows [⟨"1", "C1", 1000, "Unpaid", "Pending"⟩, ⟨"2", "C2", 500, "Unpaid", "Pending"⟩]
        [⟨1, "1", "d", 400, "Cash", 600, ""⟩]).map (fun r => r.2.2.2)).sum ∧
    rec_total [⟨"1", "C1", 1000, "Unpaid", "Pending"⟩, ⟨"2", "C2", 500, "Unpaid", "Pending"⟩]
        [⟨1, "1", "d", 400, "Cash", 600, ""⟩] = 1100 := by
  have ha : txnsFor [⟨1, "1", "d", 400, "Cash", 600, ""⟩] "1" =
      [⟨1, "1", "d", 400, "Cash", 600, ""⟩] := rfl
  have hb : txnsFor [⟨1, "1", "d", 400, "Cash", 600, ""⟩] "2" = [] := rfl
  have hu1 : unpaid ⟨"1", "C1", 1000, "Unpaid", "Pending"⟩
      [⟨1, "1", "d", 400, "Cash", 600, ""⟩] = 600 := by
    rw [unpaid_eq]
    simp only [paidSoFar, ha, List.map_cons, List.map_nil]
    norm_num
  have hu2 : unpaid ⟨"2", "C2", 500, "Unpaid", "Pending"⟩
      [⟨1, "1", "d", 400, "Cash", 600, ""⟩] = 500 := by
    rw [unpaid_eq]
    simp only [paidSoFar, hb, List.map_nil]
    norm_num
  constructor
  · refine rec_total_amended _ _ (by simp) ?_
    intro o ho
    simp only [List.mem_cons, List.not_mem_nil, or_false] at ho
    rcases ho with h | h
    · rw [h, hu1]; norm_num
    · rw [h, hu2]; norm_num
  · rw [rec_total_of_ne_nil _ _ (by simp) (by simp)]
    simp only [List.map_cons, List.map_nil, hu1, hu2]
    norm_num

/-- C4: when exactly one order row matches the selected id, recording a
payment stores the snapshot `remaining_at_time_of_entry =
order.total_amount - (prior payments + new amount)` (src/new.py
lines 353-365), and the previously stored transactions — including their
snapshots — are left untouched by the append. -/
theorem record_payment_snapshot (orders : List Order) (txns : List Txn)
    (o : Order) (oid date : String) (amount : ℚ) (method notes : String)
    (h : orders.filter (fun x => x.order_id == oid) = [o]) :
    lastRemaining (recordPayment orders txns oid date amount method notes) =
      some (o.total_amount - (paidSoFar txns oid + amount)) ∧
    (recordPayment orders txns oid date amount method notes).take txns.length =
      txns := by
  constructor
  · simp only [lastRemaining, recordPayment]
    rw [List.getLast?_concat]
    simp [orderTotalFor, h]
  · simp only [recordPayment]
    exact List.take_left txns _

/-- C4 witness: the two-payment scenario of the spec — order total 900,
then 300 paid twice sequentially: the first stored snapshot is 600, the
second is 300, and the second append leaves the first transaction (and
its snapshot) in place unchanged. -/
theorem record_payment_snapshot_witness :
    lastRemaining (recordPayment [⟨"7", "C7", 900, "Unpaid", "Pending"⟩] [] "7" "d1" 300 "Cash" "") =
      some 600 ∧
    lastRemaining (recordPayment [⟨"7", "C7", 900, "Unpaid", "Pending"⟩]
        (recordPayment [⟨"7", "C7", 900, "Unpaid", "Pending"⟩] [] "7" "d1" 300 "Cash" "")
        "7" "d2" 300 "Cash" "") = some 300 ∧
    (recordPayment [⟨"7", "C7", 900, "Unpaid", "Pending"⟩]
        (recordPayment [⟨"7", "C7", 900, "Unpaid", "Pending"⟩] [] "7" "d1" 300 "Cash" "")
        "7" "d2" 300 "Cash" "").take
      (recordPayment [⟨"7", "C7", 900, "Unpaid", "Pending"⟩] [] "7" "d1" 300 "Cash" "").length =
      recordPayment [⟨"7", "C7", 900, "Unpaid", "Pending"⟩] [] "7" "d1" 300 "Cash" "" := by
  have hfil : ([⟨"7", "C7", 900, "Unpaid", "Pending"⟩] : List Order).filter
      (fun x => x.order_id == "7") = [⟨"7", "C7", 900, "Unpaid", "Pending"⟩] := rfl
  have h1 := record_payment_snapshot [⟨"7", "C7", 900, "Unpaid", "Pending"⟩] []
    ⟨"7", "C7", 900, "Unpaid", "Pending"⟩ "7" "d1" 300 "Cash" "" hfil
  have h2 := record_payment_snapshot [⟨"7", "C7", 900, "Unpaid", "Pending"⟩]
    (recordPayment [⟨"7", "C7", 900, "Unpaid", "Pending"⟩] [] "7" "d1" 300 "Cash" "")
    ⟨"7", "C7", 900, "Unpaid", "Pending"⟩ "7" "d2" 300 "Cash" "" hfil
  refine ⟨?_, ?_, h2.2⟩
  · rw [h1.1]
    simp only [paidSoFar, txnsFor_nil, List.map_nil, List.sum_nil]
    norm_num
  · rw [h2.1]
    have hp : paidSoFar (recordPayment [⟨"7", "C7", 900, "Unpaid", "Pending"⟩] [] "7" "d1" 300 "Cash" "")
        "7" = 300 := by
      simp only [recordPayment, List.nil_append, paidSoFar, orderTotalFor]
      rw [txnsFor_cons_eq _ _ _ rfl, txnsFor_nil]
      simp
    rw [hp]
    norm_num

/-- C10: the payment-recording form looks the selected order's total up
as the SUM of `Total Amount` over every matching order row (src/new.py
line 353): the stored snapshot is always `sum of matching totals -
(prior payments + amount)`, so two duplicate order-id rows make the
snapshot count both their totals. -/
theorem record_payment_total_sum (orders : List Order) (txns : List Txn)
    (oid date : String) (amount : ℚ) (method notes : String) :
    lastRemaining (recordPayment orders txns oid date amount method notes) =
      some (orderTotalFor orders oid - (paidSoFar txns oid + amount)) ∧
    (∀ o1 o2 : Order, orders.filter (fun x => x.order_id == oid) = [o1, o2] →
      lastRemaining (recordPayment orders txns oid date amount method notes) =
        some (o1.total_amount + o2.total_amount - (paidSoFar txns oid + amount))) := by
  constructor
  · simp only [lastRemaining, recordPayment]
    rw [List.getLast?_concat]
    rfl
  · intro o1 o2 h
    simp only [lastRemaining, recordPayment]
    rw [List.getLast?_concat]
    simp only [orderTotalFor, h, List.map_cons, List.map_nil, List.sum_cons,
      List.sum_nil]
    norm_num

/-- C10 witness: two order rows share id "1" with totals 100 and 50; a 30
payment records the snapshot 150 - 30 = 120, computed against the sum of
the duplicate totals. -/
theorem record_payment_total_sum_witness :
    ([⟨"1", "C1", 100, "Unpaid", "Pending"⟩, ⟨"1", "C2", 50, "Unpaid", "Pending"⟩] : List Order).filter
        (fun x => x.order_id == "1") =
      [⟨"1", "C1", 100, "Unpaid", "Pending"⟩, ⟨"1", "C2", 50, "Unpaid", "Pending"⟩] ∧
    lastRemaining (recordPayment [⟨"1", "C1", 100, "Unpaid", "Pending"⟩, ⟨"1", "C2", 50, "Unpaid", "Pending"⟩]
        [] "1" "d" 30 "Cash" "") = some 120 := by
  refine ⟨rfl, ?_⟩
  have h := (record_payment_total_sum [⟨"1", "C1", 100, "Unpaid", "Pending"⟩, ⟨"1", "C2", 50, "Unpaid", "Pending"⟩]
    [] "1" "d" 30 "Cash" "").2 ⟨"1", "C1", 100, "Unpaid", "Pending"⟩
    ⟨"1", "C2", 50, "Unpaid", "Pending"⟩ rfl
  rw [h]
  simp only [paidSoFar, txnsFor_nil, List.map_nil, List.sum_nil]
  norm_num

/-- C5 counterexample: `"²"` passes Python's `isdigit` test but `int`
raises on it, so `get_next_id ["5", "²"]` falls into the bare `except`
and returns 1 — NOT strictly greater than the parseable id 5, refuting
the claim that unparseable values are silently ignored. -/
theorem get_next_id_counterexample :
    get_next_id ["5", "²"] = 1 ∧
    pyIsDigit (stripWS "5") = true ∧ pyInt "5" = some 5 ∧
    pyIsDigit (stripWS "²") = true ∧ pyInt "²" = none ∧
    ¬ (5 < get_next_id ["5", "²"]) := by
  decide

/-- C5 amended: when every value that passes the `isdigit` filter also
parses with `int` (in particular when every id is a plain decimal
string), `get_next_id` returns the attained maximum plus one — strictly
greater than every parsed value — and 1 when nothing qualifies; but when
some filtered value makes `int` raise (a digit character that is not a
decimal digit, such as `"²"`), the bare `except` returns 1 regardless of
the other identifiers. -/
theorem get_next_id_amended (ids : List String) :
    ((∀ x ∈ ids.filter (fun x => pyIsDigit (stripWS x)), (pyInt x).isSome) →
      (∀ n ∈ parsedIds ids, n < get_next_id ids) ∧
      (parsedIds ids = [] → get_next_id ids = 1) ∧
      (parsedIds ids ≠ [] → get_next_id ids - 1 ∈ parsedIds ids)) ∧
    ((∃ x ∈ ids.filter (fun x => pyIsDigit (stripWS x)), pyInt x = none) →
      get_next_id ids = 1) := by
  constructor
  · intro hall
    have hsome : intsOf (ids.filter (fun x => pyIsDigit (stripWS x))) =
        some (parsedIds ids) := by
      rw [parsedIds]
      exact intsOf_all_some _ hall
    cases hp : parsedIds ids with
    | nil =>
      rw [hp] at hsome
      have hg : get_next_id ids = 1 := by simp only [get_next_id, hsome]
      refine ⟨?_, fun _ => hg, fun hne => absurd rfl hne⟩
      intro x hx
      cases hx
    | cons n ns =>
      rw [hp] at hsome
      have hg : get_next_id ids = ns.foldl max n + 1 := by
        simp only [get_next_id, hsome]
      refine ⟨?_, fun h0 => ?_, fun _ => ?_⟩
      · intro x hx
        rw [hg]
        have hm := le_foldl_max ns n
        rcases List.mem_cons.mp hx with h1 | h1
        · exact Nat.lt_succ_of_le (h1 ▸ hm.1)
        · exact Nat.lt_succ_of_le (hm.2 x h1)
      · cases h0
      · rw [hg]
        simp only [Nat.add_sub_cancel]
        rcases foldl_max_mem ns n with h | h
        · rw [h]
          exact List.mem_cons_self n ns
        · exact List.mem_cons_of_mem n h
  · rintro ⟨x, hx, hnone⟩
    have hnone' : intsOf (ids.filter (fun x => pyIsDigit (stripWS x))) = none :=
      intsOf_has_none _ ⟨x, hx, hnone⟩
    simp only [get_next_id, hnone']

/-- C5 amended witness: for ["3", "x", "10", "１２３"] every filtered value
parses (the fullwidth string to 123), the allocator exceeds 123 and its
result minus one is an attained parsed id; and for ["5", "²"] the
exception branch yields 1. -/
theorem get_next_id_amended_witness :
    (∀ x ∈ (["3", "x", "10", "１２３"] : List String).filter
      (fun x => pyIsDigit (stripWS x)), (pyInt x).isSome) ∧
    123 ∈ parsedIds ["3", "x", "10", "１２３"] ∧
    123 < get_next_id ["3", "x", "10", "１２３"] ∧
    get_next_id ["3", "x", "10", "１２３"] - 1 ∈ parsedIds ["3", "x", "10", "１２３"] ∧
    get_next_id ["5", "²"] = 1 := by
  refine ⟨by decide, by decide, ?_, ?_, ?_⟩
  · exact ((get_next_id_amended ["3", "x", "10", "１２３"]).1 (by decide)).1 123 (by decide)
  · exact ((get_next_id_amended ["3", "x", "10", "１２３"]).1 (by decide)).2.2 (by decide)
  · exact (get_next_id_amended ["5", "²"]).2 ⟨"²", by decide, by decide⟩

/-- C6: for every four input tables the financial summary satisfies
`net_balance = total_received + total_other_income - total_expenses`
(src/new.py line 191), and on all-empty tables every field is zero; the
embedding is a pure function of its inputs, which never mutates them. -/
theorem financial_summary_net_balance (orders transactions expenses income : Table) :
    (financial_summary orders transactions expenses income).net_balance =
      (financial_summary orders transactions expenses income).total_received +
        (financial_summary orders transactions expenses income).total_other_income -
        (financial_summary orders transactions expenses income).total_expenses ∧
    financial_summary emptyTable emptyTable emptyTable emptyTable =
      { total_sales := 0, total_received := 0, total_other_income := 0,
        total_expenses := 0, net_balance := 0 } := by
  constructor
  · rfl
  · have g1 : guardedSum emptyTable "total amount" "Total Amount" = 0 := rfl
    have g2 : guardedSum emptyTable "amount paid" "Amount Paid" = 0 := rfl
    have g3 : guardedSum emptyTable "amount" "Amount" = 0 := rfl
    simp only [financial_summary, g1, g2, g3]
    norm_num [Summary.mk.injEq]

/-- C7: `total_sales` (src/new.py lines 187 and 501) is the sum of
`total_amount` over every order row; it is invariant under arbitrary
changes of the `payment_status` and `order_status` labels, and a
prepended order — Cancelled or not — always contributes its full
total. -/
theorem total_sales_ignores_status (orders : List Order)
    (pf sf : Order → String) :
    total_sales orders = (orders.map Order.total_amount).sum ∧
    total_sales (orders.map (fun o =>
      { o with payment_status := pf o, order_status := sf o })) =
      total_sales orders ∧
    ∀ o : Order, total_sales (o :: orders) = o.total_amount + total_sales orders := by
  refine ⟨rfl, ?_, ?_⟩
  · rw [total_sales, total_sales, List.map_map]
    rfl
  · intro o
    rw [total_sales, total_sales, List.map_cons, List.sum_cons]

/-- C8: the tolerant numeric parser of `load_data` (src/new.py line 103)
turns the cell "₹1,234.50" into 1234.50 (currency sign and thousands
separator stripped) and an empty cell into 0, and being a total function
it never raises. -/
theorem numeric_tolerance :
    toNumeric "₹1,234.50" = 1234.5 ∧ toNumeric "" = 0 := by
  constructor
  · have h : toNumeric "₹1,234.50" =
        (digitsVal ['1', '2', '3', '4'] : ℚ) +
          (digitsVal ['5', '0'] : ℚ) / (10 : ℚ) ^ (['5', '0'].length) := rfl
    have d1 : digitsVal ['1', '2', '3', '4'] = 1234 := rfl
    have d2 : digitsVal ['5', '0'] = 50 := rfl
    rw [h, d1, d2]
    norm_num
  · rfl

/-- C9: if the Orders table has no header matching "total amount" and the
Transactions table none matching "amount paid", the fallback names are
not headers either, so both contributions are 0 and the summary is still
fully produced, with `net_balance` reducing to other income minus
expenses (src/new.py lines 182-191). -/
theorem missing_column_zero (orders transactions expenses income : Table)
    (ho : ∀ c ∈ orders.headers, matchesKeywords "total amount" c = false)
    (ht : ∀ c ∈ transactions.headers, matchesKeywords "amount paid" c = false) :
    (financial_summary orders transactions expenses income).total_sales = 0 ∧
    (financial_summary orders transactions expenses income).total_received = 0 ∧
    (financial_summary orders transactions expenses income).net_balance =
      (financial_summary orders transactions expenses income).total_other_income -
        (financial_summary orders transactions expenses income).total_expenses := by
  have h1 : guardedSum orders "total amount" "Total Amount" = 0 :=
    guardedSum_eq_zero_of_no_match orders _ _ (by decide) ho
  have h2 : guardedSum transactions "amount paid" "Amount Paid" = 0 :=
    guardedSum_eq_zero_of_no_match transactions _ _ (by decide) ht
  refine ⟨h1, h2, ?_⟩
  simp only [financial_summary, h2]
  ring

/-- C9 witness: tables whose headers "Foo" and "Bar" match nothing still
yield a complete summary with zero sales and zero received. -/
theorem missing_column_zero_witness :
    (∀ c ∈ (Table.mk ["Foo"] [["10"]]).headers,
      matchesKeywords "total amount" c = false) ∧
    (∀ c ∈ (Table.mk ["Bar"] [["5"]]).headers,
      matchesKeywords "amount paid" c = false) ∧
    (financial_summary ⟨["Foo"], [["10"]]⟩ ⟨["Bar"], [["5"]]⟩ ⟨["Amount"], [["7"]]⟩
      ⟨["Amount"], [["3"]]⟩).total_sales = 0 ∧
    (financial_summary ⟨["Foo"], [["10"]]⟩ ⟨["Bar"], [["5"]]⟩ ⟨["Amount"], [["7"]]⟩
      ⟨["Amount"], [["3"]]⟩).total_received = 0 :=
  ⟨by decide, by decide,
    (missing_column_zero _ _ _ _ (by decide) (by decide)).1,
    (missing_column_zero _ _ _ _ (by decide) (by decide)).2.1⟩

end Lumina
